import Mathlib

/-!
Verification of `app_store_parse.py` (App Store app reviews scraper).

The Python program fetches paginated review data for one app and writes it
to a CSV file.  Its core is `parse_parallel`: it estimates the number of
reviews, clamps that estimate to a hard cap, derives a page range, fetches
every page concurrently in a thread pool, collects the per-page results in
completion order, sorts them by page number and concatenates them.

This file gives a shallow embedding of the program's pure content:

* the data model (`Review`, `DeveloperResponse`);
* JSON-record decoding as performed by `AppStoreParser._get_reviews`
  (dictionary access that raises `KeyError` on a missing key is modelled
  by `Except`-valued field lookup);
* the CSV sink `write_reviews` (rows of cells, header first);
* the output-path computation of the `__main__` block
  (`BASE_PATH / f'{app_name}.csv'` with `BASE_PATH = dirname(__file__)`);
* `AppStoreParser.get_reviews_page` (assertion guard plus offset
  arithmetic), instrumented with the list of offsets actually requested;
* the orchestrator `parse_parallel`, parametrised by the outcome of every
  page fetch and by the order in which the thread pool completes the
  submitted futures.
-/

/-! ### Constants (lines 20-21 of the source) -/

def MAX_REVIEWS : Nat := 5200

def REVIEWS_PER_PAGE : Nat := 10

/-! ### Data model (lines 53-68) -/

structure DeveloperResponse where
  developer_id : Int
  body : String
  modified : String
deriving DecidableEq

structure Review where
  user_name : String
  title : String
  review : String
  is_edited : Bool
  last_update : String
  rating : Int
  developer_response : Option DeveloperResponse
deriving DecidableEq

/-! ### Raw JSON records and their decoding (lines 196-218)

A raw record models the `attributes` dictionary of one entry of the
`data` array of a reviews-page response: every field the code reads may
be absent.  `review_attrs['k']` raises `KeyError` when `'k'` is absent,
which aborts the whole page; `review_attrs.get('developerResponse')`
yields `None` when absent, without failing. -/

structure RawDeveloperResponse where
  id : Option Int
  body : Option String
  modified : Option String
deriving DecidableEq

structure RawRecord where
  userName : Option String
  review : Option String
  isEdited : Option Bool
  date : Option String
  rating : Option Int
  title : Option String
  developerResponse : Option RawDeveloperResponse
deriving DecidableEq

/-- Dictionary access `d['k']`: `KeyError` when the key is absent. -/
def getKey {α : Type} (key : String) : Option α → Except String α
  | some v => Except.ok v
  | none => Except.error ("KeyError: " ++ key)

/-- Decoding of a present `developerResponse` object (lines 203-207);
each field is read with `[]`, so a missing field raises. -/
def decodeDeveloperResponse (d : RawDeveloperResponse) : Except String DeveloperResponse :=
  match d.id with
  | none => Except.error "KeyError: id"
  | some i =>
    match d.body with
    | none => Except.error "KeyError: body"
    | some b =>
      match d.modified with
      | none => Except.error "KeyError: modified"
      | some m => Except.ok { developer_id := i, body := b, modified := m }

/-- The six required scalar fields of a review record, read with `[]` in
the source order `userName`, `review`, `isEdited`, `date`, `rating`,
`title` (lines 209-214); the first absent key raises. -/
def decodeFields (r : RawRecord) (dr : Option DeveloperResponse) : Except String Review :=
  match r.userName with
  | none => Except.error "KeyError: userName"
  | some u =>
    match r.review with
    | none => Except.error "KeyError: review"
    | some rv =>
      match r.isEdited with
      | none => Except.error "KeyError: isEdited"
      | some ie =>
        match r.date with
        | none => Except.error "KeyError: date"
        | some dt =>
          match r.rating with
          | none => Except.error "KeyError: rating"
          | some rt =>
            match r.title with
            | none => Except.error "KeyError: title"
            | some t =>
              Except.ok { user_name := u, title := t, review := rv, is_edited := ie,
                          last_update := dt, rating := rt, developer_response := dr }

/-- Decoding of one record (lines 199-216): the optional
`developerResponse` is handled first with `.get` (no failure when
absent), then the six required fields are read. -/
def decodeRecord (r : RawRecord) : Except String Review :=
  match r.developerResponse with
  | none => decodeFields r none
  | some d =>
    match decodeDeveloperResponse d with
    | Except.error e => Except.error e
    | Except.ok dr => decodeFields r (some dr)

/-- Decoding of the whole `data` array of a page (the `for` loop of
lines 199-216): records are decoded in order and the first failure
aborts the whole page. -/
def decodePage : List RawRecord → Except String (List Review)
  | [] => Except.ok []
  | r :: rest =>
    match decodeRecord r with
    | Except.error e => Except.error e
    | Except.ok rev =>
      match decodePage rest with
      | Except.error e => Except.error e
      | Except.ok revs => Except.ok (rev :: revs)

/-- A record is missing one of the six required scalar fields. -/
def missingRequiredField (r : RawRecord) : Bool :=
  r.userName.isNone || r.review.isNone || r.isEdited.isNone ||
  r.date.isNone || r.rating.isNone || r.title.isNone

/-! ### The CSV sink `write_reviews` (lines 221-245)

The output is modelled as a list of rows, each row a list of cell
strings.  `csv.DictWriter` emits the cells in `fieldnames` order and
converts values with `str()` (Python booleans print as `True`/`False`).
The file system is a map from paths to file contents; opening with mode
`'w'` truncates, so writing replaces whatever was there. -/

def csv_fieldnames : List String :=
  ["user_name", "title", "review", "is_edited", "last_update", "rating"]

/-- Python `str()` of a boolean. -/
def pyStrBool (b : Bool) : String := if b then "True" else "False"

/-- The row written for one review: the six scalar fields in
`fieldnames` order; `developer_response` is deleted from the row dict
(line 242) and never written. -/
def review_row (r : Review) : List String :=
  [r.user_name, r.title, r.review, pyStrBool r.is_edited, r.last_update, toString r.rating]

/-- `write_reviews`: header row first, then one row per review in input
order. -/
def write_reviews (reviews : List Review) : List (List String) :=
  csv_fieldnames :: reviews.map review_row

/-- Writing a file at `path` on a file system: mode `'w'` truncates, so
the new contents do not depend on what was previously stored there. -/
def writeFile (fs : String → Option (List (List String))) (path : String)
    (content : List (List String)) : String → Option (List (List String)) :=
  fun p => if p = path then some content else fs p

/-! ### Output path of the `__main__` block (lines 22, 293-296)

`BASE_PATH = Path(os.path.dirname(__file__))` is the directory that
contains the source file, and the output is written to
`BASE_PATH / f'{app_name}.csv'`.  The working directory the program is
invoked from never enters the computation. -/

/-- The path the code writes to: `dirname(__file__)` joined with
`<app_name>.csv`. -/
def output_path (script_dir app_name : String) : String :=
  script_dir ++ "/" ++ app_name ++ ".csv"

/-- Modelled from the spec: the spec's stated destination,
`<app_name>.csv` in the working directory the program is invoked from. -/
def output_path_spec (working_dir app_name : String) : String :=
  working_dir ++ "/" ++ app_name ++ ".csv"

/-- The write performed by the `__main__` block, as a file-system
transformer.  The working directory is a parameter of the run but the
code never reads it. -/
def program_write (fs : String → Option (List (List String)))
    (script_dir _working_dir app_name : String) (reviews : List Review) :
    String → Option (List (List String)) :=
  writeFile fs (output_path script_dir app_name) (write_reviews reviews)

/-! ### `get_reviews_page` (lines 129-138)

The unit of work of the thread pool: assert `page > 0`, compute the
zero-based offset `(page - 1) * REVIEWS_PER_PAGE`, and fetch at that
offset.  The page number is an `Int` because Python's `int` admits the
non-positive arguments the assertion guards against.  The second
component of the result is the list of offsets actually requested: a
failed assertion raises before any request is made, so it is empty
there. -/

def get_reviews_page (fetchAtOffset : Int → Except String (List Review)) (page : Int) :
    Except String (List Review) × List Int :=
  if page > 0 then
    (fetchAtOffset ((page - 1) * (REVIEWS_PER_PAGE : Int)),
     [(page - 1) * (REVIEWS_PER_PAGE : Int)])
  else
    (Except.error "AssertionError", [])

/-! ### The orchestrator `parse_parallel` (lines 248-284)

The fetch outcome of every page is abstracted as
`fetch : Nat → Except String (List Review)` (the value or the exception
of `parser.get_reviews_page page`).  `as_completed` yields the futures
in an arbitrary completion order, modelled as a list of page numbers;
the theorems quantify over every permutation of the submitted pages.
Successes are collected in completion order as `(page, reviews)` pairs,
failures are dropped (lines 271-279); the pairs are then sorted by page
number and flattened (lines 281-282). -/

/-- Lines 258-260: clamp the estimated count to `MAX_REVIEWS`. -/
def clamped_rating_count (rating_count : Nat) : Nat :=
  if rating_count > MAX_REVIEWS then MAX_REVIEWS else rating_count

/-- Line 262: `last_page = rating_count // REVIEWS_PER_PAGE`. -/
def last_page (rating_count : Nat) : Nat :=
  clamped_rating_count rating_count / REVIEWS_PER_PAGE

/-- Line 267: `range(1, last_page + 1)`, the submitted page numbers. -/
def pages_range (rating_count : Nat) : List Nat :=
  List.range' 1 (last_page rating_count)

/-- The reviews a page contributes on success, `[]` on failure. -/
def fetchedReviews (fetch : Nat → Except String (List Review)) (p : Nat) : List Review :=
  ((fetch p).toOption).getD []

/-- Whether the fetch of page `p` succeeded. -/
def fetchOk (fetch : Nat → Except String (List Review)) (p : Nat) : Bool :=
  ((fetch p).toOption).isSome

/-- The `as_completed` loop (lines 271-279): walk the futures in
completion order, keep `(page, reviews)` for each success, drop each
failure. -/
def collectResults (fetch : Nat → Except String (List Review)) :
    List Nat → List (Nat × List Review)
  | [] => []
  | p :: rest =>
    match fetch p with
    | Except.ok reviews => (p, reviews) :: collectResults fetch rest
    | Except.error _ => collectResults fetch rest

/-- Comparison by page number, the sort key of line 281
(`key=itemgetter(0)`). -/
def keyLE {β : Type} (a b : Nat × β) : Prop := a.1 ≤ b.1

/-- Strict comparison by page number. -/
def keyLT {β : Type} (a b : Nat × β) : Prop := a.1 < b.1

instance {β : Type} : DecidableRel (@keyLE β) := fun a b => Nat.decLe a.1 b.1

instance {β : Type} : IsTotal (Nat × β) keyLE := ⟨fun a b => Nat.le_total a.1 b.1⟩

instance {β : Type} : IsTrans (Nat × β) keyLE := ⟨fun _ _ _ h1 h2 => Nat.le_trans h1 h2⟩

instance {β : Type} : IsAntisymm (Nat × β) keyLT :=
  ⟨fun a _ h1 h2 => absurd (Nat.lt_trans h1 h2) (Nat.lt_irrefl a.1)⟩

/-- Lines 265-284 after the page range is known: collect the completed
units in completion order, sort the successes by page number,
concatenate their reviews.  The theorems quantify the completion order
over every permutation of the submitted pages `pages_range n`. -/
def parse_parallel (fetch : Nat → Except String (List Review))
    (completionOrder : List Nat) : List Review :=
  (List.insertionSort keyLE (collectResults fetch completionOrder)).flatMap (fun pr => pr.2)

/-- Modelled from the spec: the sequential baseline, "fetching pages
1..N strictly sequentially and concatenating". -/
def sequentialBaseline (rating_count : Nat) (fetch : Nat → Except String (List Review)) :
    List Review :=
  (pages_range rating_count).flatMap (fetchedReviews fetch)

/-- Modelled from the spec: the sequential baseline with one page's
contribution removed, "the sequential baseline with page `k`'s reviews
removed". -/
def sequentialBaselineWithout (rating_count : Nat) (k : Nat)
    (fetch : Nat → Except String (List Review)) : List Review :=
  ((pages_range rating_count).filter (fun p => decide (p ≠ k))).flatMap (fetchedReviews fetch)

/-- The whole of `parse_parallel` including the count-estimation step
(line 256), which runs before the thread pool exists: its failure
propagates out and no page is ever submitted.  The second component is
the list of pages submitted as units of work. -/
def parse_parallel_run (rating_count_result : Except String Nat)
    (fetch : Nat → Except String (List Review)) (completionOrder : Nat → List Nat) :
    Except String (List Review) × List Nat :=
  match rating_count_result with
  | Except.error e => (Except.error e, [])
  | Except.ok n => (Except.ok (parse_parallel fetch (completionOrder n)), pages_range n)

/-! ### Concrete sample inputs used to evaluate the theorems -/

/-- A distinguishable concrete review for page `p`. -/
def sampleReview (p : Nat) : Review :=
  { user_name := "", title := "", review := "", is_edited := false,
    last_update := "", rating := Int.ofNat p, developer_response := none }

/-- A fetch in which every page succeeds with one review. -/
def sampleFetch (p : Nat) : Except String (List Review) :=
  Except.ok [sampleReview p]

/-- A fetch in which exactly page 2 fails. -/
def failingFetch (p : Nat) : Except String (List Review) :=
  if p = 2 then Except.error "HTTPError" else Except.ok [sampleReview p]

/-- A page fetcher keyed by offset that always succeeds. -/
def sampleOffsetFetch (_offset : Int) : Except String (List Review) :=
  Except.ok []

/-- A raw record with every required field absent. -/
def badRecord : RawRecord :=
  { userName := none, review := none, isEdited := none, date := none,
    rating := none, title := none, developerResponse := none }

/-- A fully populated raw developer response. -/
def goodDevResp : RawDeveloperResponse :=
  { id := some 7, body := some "thanks", modified := some "2020" }

/-- A fully populated raw record carrying a developer response. -/
def goodRecord : RawRecord :=
  { userName := some "u", review := some "r", isEdited := some false, date := some "d",
    rating := some 5, title := some "t", developerResponse := some goodDevResp }

/-- The review `goodRecord` decodes to. -/
def goodReview : Review :=
  { user_name := "u", title := "t", review := "r", is_edited := false, last_update := "d",
    rating := 5,
    developer_response := some { developer_id := 7, body := "thanks", modified := "2020" } }

/-! ### Helper lemmas for the orchestrator -/

/-- The `as_completed` loop keeps exactly the successful pages, in
completion order, each paired with its fetched reviews. -/
lemma collectResults_eq_filter_map (fetch : Nat → Except String (List Review))
    (order : List Nat) :
    collectResults fetch order
      = (order.filter (fetchOk fetch)).map (fun p => (p, fetchedReviews fetch p)) := by
  induction order with
  | nil => rfl
  | cons p rest ih =>
    cases h : fetch p with
    | ok l =>
      simp [collectResults, h, List.filter_cons, fetchOk, fetchedReviews, Except.toOption, ih]
    | error e =>
      simp [collectResults, h, List.filter_cons, fetchOk, fetchedReviews, Except.toOption, ih]

/-- Sorting by page number is canonical: any list of pairs that is a
permutation of a strictly key-sorted target and is itself weakly
key-sorted with pairwise-distinct keys equals the target. -/
lemma insertionSort_eq_of_perm_sorted {β : Type} {l target : List (Nat × β)}
    (hp : (List.insertionSort keyLE l).Perm target)
    (ht : target.Pairwise keyLT) :
    List.insertionSort keyLE l = target := by
  have hsorted : (List.insertionSort keyLE l).Pairwise keyLE :=
    List.sorted_insertionSort keyLE l
  have hndt : (target.map Prod.fst).Nodup := by
    have : (target.map Prod.fst).Pairwise (fun a b => a < b) :=
      List.pairwise_map.mpr ht
    exact this.imp Nat.ne_of_lt
  have hndl : ((List.insertionSort keyLE l).map Prod.fst).Nodup :=
    ((hp.map Prod.fst).symm).nodup hndt
  have hne : (List.insertionSort keyLE l).Pairwise (fun a b => a.1 ≠ b.1) :=
    List.pairwise_map.mp hndl
  have hlt : (List.insertionSort keyLE l).Pairwise keyLT :=
    (hsorted.and hne).imp (fun h => Nat.lt_of_le_of_ne h.1 h.2)
  exact List.eq_of_perm_of_sorted hp hlt ht

/-- Master lemma: for any completion order that is a permutation of the
submitted pages, the orchestrator returns the concatenation, in page
order, of the reviews of exactly the successful pages. -/
lemma parse_parallel_eq_filtered (n : Nat) (fetch : Nat → Except String (List Review))
    (order : List Nat) (hperm : order.Perm (pages_range n)) :
    parse_parallel fetch order
      = ((pages_range n).filter (fetchOk fetch)).flatMap (fetchedReviews fetch) := by
  unfold parse_parallel
  rw [collectResults_eq_filter_map]
  have hp : (List.insertionSort keyLE
        ((order.filter (fetchOk fetch)).map (fun p => (p, fetchedReviews fetch p)))).Perm
      (((pages_range n).filter (fetchOk fetch)).map (fun p => (p, fetchedReviews fetch p))) :=
    (List.perm_insertionSort _ _).trans ((hperm.filter _).map _)
  have ht : (((pages_range n).filter (fetchOk fetch)).map
      (fun p => (p, fetchedReviews fetch p))).Pairwise keyLT := by
    refine List.pairwise_map.mpr ?_
    exact List.Pairwise.sublist (List.filter_sublist _) (List.pairwise_lt_range' 1 _)
  rw [insertionSort_eq_of_perm_sorted hp ht]
  simp [List.flatMap_map]

/-! ### C1, C2, C3, C8: the orchestrator -/

/-- C1: for every set of pages in which every page fetch succeeds, the
sequence returned by the concurrent orchestrator (collect results in
arbitrary completion order, sort by page number ascending, concatenate)
equals the sequence produced by fetching pages 1..N strictly
sequentially and concatenating: same length (the sum of per-page review
counts), same order, no duplicates and no omissions, for every
permutation of completion order. -/
theorem parse_parallel_refines_sequential (n : Nat)
    (fetch : Nat → Except String (List Review)) (order : List Nat)
    (hperm : order.Perm (pages_range n))
    (hok : ∀ p ∈ pages_range n, fetchOk fetch p = true) :
    parse_parallel fetch order = sequentialBaseline n fetch ∧
    (parse_parallel fetch order).length
      = ((pages_range n).map (fun p => (fetchedReviews fetch p).length)).sum := by
  have h := parse_parallel_eq_filtered n fetch order hperm
  rw [List.filter_eq_self.mpr hok] at h
  refine ⟨h, ?_⟩
  rw [h]
  rw [List.length_flatMap]
  rfl

theorem parse_parallel_refines_sequential_witness :
    ([2, 3, 1] : List Nat).Perm (pages_range 30) ∧
    (∀ p ∈ pages_range 30, fetchOk sampleFetch p = true) ∧
    parse_parallel sampleFetch [2, 3, 1] = sequentialBaseline 30 sampleFetch :=
  ⟨by decide, by decide,
   (parse_parallel_refines_sequential 30 sampleFetch [2, 3, 1] (by decide) (by decide)).1⟩

/-- C2: for every page set where exactly page `k`'s fetch fails and all
other pages succeed, the orchestrator's result equals the sequential
baseline with page `k`'s reviews removed: the failure is caught at the
unit-of-work boundary, page `k` contributes zero reviews, and no other
page's contribution is affected. -/
theorem parse_parallel_drops_failed_page (n k : Nat)
    (fetch : Nat → Except String (List Review)) (order : List Nat)
    (hperm : order.Perm (pages_range n))
    (hkmem : k ∈ pages_range n)
    (hk : fetchOk fetch k = false)
    (hok : ∀ p ∈ pages_range n, p ≠ k → fetchOk fetch p = true) :
    parse_parallel fetch order = sequentialBaselineWithout n k fetch := by
  have h := parse_parallel_eq_filtered n fetch order hperm
  have hcongr : ∀ p ∈ pages_range n, fetchOk fetch p = decide (p ≠ k) := by
    intro p hp
    by_cases hpk : p = k
    · subst hpk; simp [hk]
    · simp [hok p hp hpk, hpk]
  rw [List.filter_congr hcongr] at h
  exact h

theorem parse_parallel_drops_failed_page_witness :
    ([3, 1, 2] : List Nat).Perm (pages_range 30) ∧
    2 ∈ pages_range 30 ∧ fetchOk failingFetch 2 = false ∧
    parse_parallel failingFetch [3, 1, 2] = sequentialBaselineWithout 30 2 failingFetch :=
  ⟨by decide, by decide, by decide,
   parse_parallel_drops_failed_page 30 2 failingFetch [3, 1, 2]
     (by decide) (by decide) (by decide) (by decide)⟩

/-- C3: the orchestrator first clamps the estimated total to the hard
cap 5200 when it exceeds the cap, then computes the last page by
truncating integer division by the page size 10, and requests exactly
the pages 1..lastPage; estimated total 25 yields last page 2 (the
partial third page is never fetched) and 6000 yields last page 520. -/
theorem pages_range_clamped_truncated :
    (∀ n, clamped_rating_count n = min n MAX_REVIEWS) ∧
    (∀ n, last_page n = min n MAX_REVIEWS / REVIEWS_PER_PAGE) ∧
    (∀ n p, p ∈ pages_range n ↔ 1 ≤ p ∧ p ≤ last_page n) ∧
    last_page 25 = 2 ∧ pages_range 25 = [1, 2] ∧
    last_page 6000 = 520 ∧ last_page 6000 = MAX_REVIEWS / REVIEWS_PER_PAGE := by
  have hclamp : ∀ n, clamped_rating_count n = min n MAX_REVIEWS := by
    intro n
    simp only [clamped_rating_count, MAX_REVIEWS]
    split <;> omega
  refine ⟨hclamp, ?_, ?_, by decide, by decide, by decide, by decide⟩
  · intro n
    rw [last_page, hclamp]
  · intro n p
    rw [pages_range, List.mem_range'_1]
    omega

/-- C8: if the one-time count-estimation step fails, the run terminates
with that error before any page-fetch unit of work is submitted and no
reviews are collected; if it succeeds, the run always returns a result
(per-page failures are caught inside the orchestrator and never
propagate). -/
theorem count_estimation_failure_aborts (rc : Except String Nat)
    (fetch : Nat → Except String (List Review)) (co : Nat → List Nat) :
    (∀ e, rc = Except.error e → parse_parallel_run rc fetch co = (Except.error e, [])) ∧
    (∀ n, rc = Except.ok n →
      parse_parallel_run rc fetch co
        = (Except.ok (parse_parallel fetch (co n)), pages_range n)) := by
  constructor
  · rintro e rfl; rfl
  · rintro n rfl; rfl

theorem count_estimation_failure_aborts_witness :
    parse_parallel_run (Except.error "AuthError") failingFetch (fun n => pages_range n)
      = (Except.error "AuthError", []) ∧
    parse_parallel_run (Except.ok 30) failingFetch (fun n => pages_range n)
      = (Except.ok (parse_parallel failingFetch (pages_range 30)), pages_range 30) :=
  ⟨(count_estimation_failure_aborts (Except.error "AuthError") failingFetch
      (fun n => pages_range n)).1 "AuthError" rfl,
   (count_estimation_failure_aborts (Except.ok 30) failingFetch
      (fun n => pages_range n)).2 30 rfl⟩

/-! ### C5, C6: record decoding -/

/-- A record with a missing required field makes `decodeFields` raise,
whatever developer response was decoded before it. -/
lemma decodeFields_error_of_missing (r : RawRecord) (dr : Option DeveloperResponse)
    (h : missingRequiredField r = true) :
    ∃ e, decodeFields r dr = Except.error e := by
  rcases hu : r.userName with _ | u
  · exact ⟨"KeyError: userName", by simp [decodeFields, hu]⟩
  rcases hrv : r.review with _ | rv
  · exact ⟨"KeyError: review", by simp [decodeFields, hu, hrv]⟩
  rcases hie : r.isEdited with _ | ie
  · exact ⟨"KeyError: isEdited", by simp [decodeFields, hu, hrv, hie]⟩
  rcases hdt : r.date with _ | dt
  · exact ⟨"KeyError: date", by simp [decodeFields, hu, hrv, hie, hdt]⟩
  rcases hrt : r.rating with _ | rt
  · exact ⟨"KeyError: rating", by simp [decodeFields, hu, hrv, hie, hdt, hrt]⟩
  rcases ht : r.title with _ | t
  · exact ⟨"KeyError: title", by simp [decodeFields, hu, hrv, hie, hdt, hrt, ht]⟩
  simp [missingRequiredField, hu, hrv, hie, hdt, hrt, ht] at h

/-- A record with a missing required field makes `decodeRecord` raise:
either its developer response already fails to decode, or the required
fields do. -/
lemma decodeRecord_error_of_missing (r : RawRecord)
    (h : missingRequiredField r = true) :
    ∃ e, decodeRecord r = Except.error e := by
  rcases hd : r.developerResponse with _ | d
  · obtain ⟨e, he⟩ := decodeFields_error_of_missing r none h
    exact ⟨e, by simp [decodeRecord, hd, he]⟩
  · rcases hdd : decodeDeveloperResponse d with e | dr
    · exact ⟨e, by simp [decodeRecord, hd, hdd]⟩
    · obtain ⟨e, he⟩ := decodeFields_error_of_missing r (some dr) h
      exact ⟨e, by simp [decodeRecord, hd, hdd, he]⟩

/-- C5: if any record of a page is missing a required field (`userName`,
`review`, `isEdited`, `date`, `rating` or `title`), the whole page fails
with an error and contributes no reviews: there is no partial-page
recovery. -/
theorem decodePage_fails_on_missing (records : List RawRecord)
    (h : ∃ r ∈ records, missingRequiredField r = true) :
    (∃ e, decodePage records = Except.error e) ∧
    ∀ revs, decodePage records ≠ Except.ok revs := by
  have herr : ∃ e, decodePage records = Except.error e := by
    induction records with
    | nil =>
      obtain ⟨r, hr, _⟩ := h
      cases hr
    | cons a rest ih =>
      obtain ⟨r, hr, hm⟩ := h
      rcases List.mem_cons.mp hr with rfl | hmem
      · obtain ⟨e, he⟩ := decodeRecord_error_of_missing r hm
        exact ⟨e, by simp [decodePage, he]⟩
      · rcases ha : decodeRecord a with e | rev
        · exact ⟨e, by simp [decodePage, ha]⟩
        · obtain ⟨e, he⟩ := ih ⟨r, hmem, hm⟩
          exact ⟨e, by simp [decodePage, ha, he]⟩
  refine ⟨herr, ?_⟩
  intro revs hrevs
  obtain ⟨e, he⟩ := herr
  rw [he] at hrevs
  cases hrevs

theorem decodePage_fails_on_missing_witness :
    (∃ r ∈ [badRecord], missingRequiredField r = true) ∧
    ∃ e, decodePage [badRecord] = Except.error e :=
  ⟨⟨badRecord, by simp, rfl⟩,
   (decodePage_fails_on_missing [badRecord] ⟨badRecord, by simp, rfl⟩).1⟩

/-- On success, `decodeFields` installs exactly the developer response
it was given. -/
lemma decodeFields_ok_developer_response (r : RawRecord) (dr : Option DeveloperResponse)
    (rev : Review) (h : decodeFields r dr = Except.ok rev) :
    rev.developer_response = dr := by
  rcases hu : r.userName with _ | u
  · simp [decodeFields, hu] at h
  rcases hrv : r.review with _ | rv
  · simp [decodeFields, hu, hrv] at h
  rcases hie : r.isEdited with _ | ie
  · simp [decodeFields, hu, hrv, hie] at h
  rcases hdt : r.date with _ | dt
  · simp [decodeFields, hu, hrv, hie, hdt] at h
  rcases hrt : r.rating with _ | rt
  · simp [decodeFields, hu, hrv, hie, hdt, hrt] at h
  rcases ht : r.title with _ | t
  · simp [decodeFields, hu, hrv, hie, hdt, hrt, ht] at h
  simp [decodeFields, hu, hrv, hie, hdt, hrt, ht] at h
  rw [← h]

/-- On success, `decodeDeveloperResponse` takes each field from the raw
object. -/
lemma decodeDeveloperResponse_ok (d : RawDeveloperResponse) (dr : DeveloperResponse)
    (h : decodeDeveloperResponse d = Except.ok dr) :
    d.id = some dr.developer_id ∧ d.body = some dr.body ∧ d.modified = some dr.modified := by
  rcases hi : d.id with _ | i
  · simp [decodeDeveloperResponse, hi] at h
  rcases hb : d.body with _ | b
  · simp [decodeDeveloperResponse, hi, hb] at h
  rcases hm : d.modified with _ | m
  · simp [decodeDeveloperResponse, hi, hb, hm] at h
  simp only [decodeDeveloperResponse, hi, hb, hm, Except.ok.injEq] at h
  subst h
  exact ⟨rfl, rfl, rfl⟩

/-- C6: for every successfully decoded record, the resulting review's
`developer_response` is present, with `developer_id`, `body` and
`modified` taken from the record, if and only if the raw record included
a `developerResponse` object; when the record lacks one, it is absent
and no default is synthesized. -/
theorem developer_response_faithful (r : RawRecord) (rev : Review)
    (h : decodeRecord r = Except.ok rev) :
    (r.developerResponse = none → rev.developer_response = none) ∧
    (∀ d, r.developerResponse = some d →
      ∃ dr, rev.developer_response = some dr ∧
        d.id = some dr.developer_id ∧ d.body = some dr.body ∧
        d.modified = some dr.modified) := by
  rcases hd : r.developerResponse with _ | d
  · have hf : decodeFields r none = Except.ok rev := by
      simpa [decodeRecord, hd] using h
    refine ⟨fun _ => decodeFields_ok_developer_response r none rev hf, ?_⟩
    intro d hd'
    cases hd'
  · rcases hdd : decodeDeveloperResponse d with e | dr0
    · simp [decodeRecord, hd, hdd] at h
    · have hf : decodeFields r (some dr0) = Except.ok rev := by
        simpa [decodeRecord, hd, hdd] using h
      have hr := decodeFields_ok_developer_response r (some dr0) rev hf
      obtain ⟨h1, h2, h3⟩ := decodeDeveloperResponse_ok d dr0 hdd
      constructor
      · intro hnone
        cases hnone
      · intro d' hd'
        obtain rfl : d = d' := Option.some.inj hd'
        exact ⟨dr0, hr, h1, h2, h3⟩

theorem developer_response_faithful_witness :
    decodeRecord goodRecord = Except.ok goodReview ∧
    ∃ dr, goodReview.developer_response = some dr ∧
      goodDevResp.id = some dr.developer_id ∧ goodDevResp.body = some dr.body ∧
      goodDevResp.modified = some dr.modified :=
  ⟨rfl, (developer_response_faithful goodRecord goodReview rfl).2 goodDevResp rfl⟩

/-! ### C7: the CSV sink -/

/-- C7: `write_reviews` produces a header row
`user_name,title,review,is_edited,last_update,rating` followed by
exactly one row per review in the input order, each row containing only
the six scalar review fields and never the developer response; an
existing destination file is overwritten. -/
theorem write_reviews_format (reviews : List Review) :
    (write_reviews reviews).length = reviews.length + 1 ∧
    (write_reviews reviews).head? = some csv_fieldnames ∧
    (∀ i : Nat, (write_reviews reviews)[i + 1]? = (reviews[i]?).map review_row) ∧
    (∀ r : Review, ∀ dr : Option DeveloperResponse,
      review_row { r with developer_response := dr } = review_row r) ∧
    (∀ fs path, writeFile fs path (write_reviews reviews) path
        = some (write_reviews reviews)) := by
  refine ⟨by simp [write_reviews], rfl, ?_, ?_, ?_⟩
  · intro i
    simp [write_reviews]
  · intro r dr
    rfl
  · intro fs path
    simp [writeFile]

/-! ### C4: the output path -/

/-- C4 counterexample: invoked from working directory `/home/user` with
the script stored in `/opt/tools`, the program does not write
`app.csv` into the working directory, as the claim states; it writes
into the script's directory. -/
theorem output_path_not_working_directory :
    output_path "/opt/tools" "app" ≠ output_path_spec "/home/user" "app" ∧
    program_write (fun _ => none) "/opt/tools" "/home/user" "app" []
      (output_path_spec "/home/user" "app") = none ∧
    program_write (fun _ => none) "/opt/tools" "/home/user" "app" []
      (output_path "/opt/tools" "app") = some (write_reviews []) := by
  refine ⟨by decide, by decide, by decide⟩

/-- C4 amended: for every `app_name` given on the command line, the
program writes its output to the file `<app_name>.csv` in the directory
containing the program's source file (`os.path.dirname(__file__)`),
independent of the working directory it is invoked from. -/
theorem program_writes_to_script_dir (fs : String → Option (List (List String)))
    (script_dir working_dir app_name : String) (reviews : List Review) :
    program_write fs script_dir working_dir app_name reviews
        (output_path script_dir app_name) = some (write_reviews reviews) ∧
    (∀ other_dir, program_write fs script_dir other_dir app_name reviews
        = program_write fs script_dir working_dir app_name reviews) := by
  refine ⟨by simp [program_write, writeFile], fun other_dir => rfl⟩

/-! ### C9, C10: the unit of work -/

/-- C9: for every page number `p ≥ 1`, the unit of work for page `p`
requests exactly one page, at the zero-based offset `(p - 1) * 10`, and
returns the fetcher's outcome at that offset. -/
theorem get_reviews_page_requests_offset
    (fetchAtOffset : Int → Except String (List Review)) (page : Int) (h : 1 ≤ page) :
    (get_reviews_page fetchAtOffset page).2 = [(page - 1) * 10] ∧
    (get_reviews_page fetchAtOffset page).1 = fetchAtOffset ((page - 1) * 10) := by
  have hp : page > 0 := h
  constructor <;> simp [get_reviews_page, hp, REVIEWS_PER_PAGE]

theorem get_reviews_page_requests_offset_witness :
    (1 : Int) ≤ 3 ∧ (get_reviews_page sampleOffsetFetch 3).2 = [((3 : Int) - 1) * 10] :=
  ⟨by decide, (get_reviews_page_requests_offset sampleOffsetFetch 3 (by decide)).1⟩

/-- C10: `get_reviews_page` has the precondition `page > 0`, enforced by
an assertion: for every page `≥ 1` the assertion passes and the computed
offset is non-negative, while calling it with `page ≤ 0` fails the
assertion before any request is made (the offset trace is empty). -/
theorem get_reviews_page_assertion_guard
    (fetchAtOffset : Int → Except String (List Review)) (page : Int) :
    (1 ≤ page →
      (get_reviews_page fetchAtOffset page).1 = fetchAtOffset ((page - 1) * 10) ∧
      0 ≤ (page - 1) * (10 : Int)) ∧
    (page ≤ 0 → get_reviews_page fetchAtOffset page = (Except.error "AssertionError", [])) := by
  constructor
  · intro h
    have hp : page > 0 := h
    refine ⟨by simp [get_reviews_page, hp, REVIEWS_PER_PAGE], ?_⟩
    have h1 : 0 ≤ page - 1 := by omega
    have h10 : (0 : Int) ≤ 10 := by norm_num
    exact mul_nonneg h1 h10
  · intro h
    have hp : ¬ page > 0 := by omega
    simp [get_reviews_page, hp]

theorem get_reviews_page_assertion_guard_witness :
    get_reviews_page sampleOffsetFetch 0 = (Except.error "AssertionError", []) ∧
    (get_reviews_page sampleOffsetFetch 1).1 = sampleOffsetFetch (((1 : Int) - 1) * 10) :=
  ⟨(get_reviews_page_assertion_guard sampleOffsetFetch 0).2 (by decide),
   ((get_reviews_page_assertion_guard sampleOffsetFetch 1).1 (by decide)).1⟩
